import Mathlib

/-!
Shallow embedding of the Kernel API HTTP client core (`src/client.py`):
the connection manager (`get_client` / `cleanup_client`), the dispatcher
(`request` with its bounded retry loop and exponential backoff), and the
response normalizer (`parse_list_response`).  Machine behaviour that the
claims quantify over (attempt outcomes delivered by the network) is made
an explicit input `outcomes : Nat → AttemptOutcome`; the trace of a call
records the result, the number of HTTP requests actually issued, the
backoff sleeps performed, and the JSON bodies sent.
-/

namespace KernelClient

/-- Fixed base origin, `KERNEL_API_BASE = "https://api.onkernel.com"`. -/
def KERNEL_API_BASE : String := "https://api.onkernel.com"

/-- Retry cap, `MAX_RETRIES = 3`. -/
def MAX_RETRIES : Nat := 3

/-- Backoff base in seconds, `RETRY_BACKOFF = 0.5`. -/
def RETRY_BACKOFF : ℚ := 1 / 2

/-- An HTTP response as the dispatcher sees it: a numeric status code and
the body text (`resp.status_code`, `resp.text`). -/
structure HttpResponse where
  status_code : Nat
  text : String
deriving DecidableEq, Repr

/-- What a single issued attempt can yield: a response, or one of the
transport-level faults the code catches (`httpx.ConnectError`,
`httpx.ReadTimeout`, `httpx.WriteTimeout`), identified by its message
(`str(e)` of the exception). -/
inductive AttemptOutcome where
  | response (r : HttpResponse)
  | transportError (msg : String)
deriving DecidableEq, Repr

/-- The data carried by a raised `KernelAPIError(status_code, message, endpoint)`. -/
structure KernelAPIErrorData where
  status_code : Nat
  message : String
  endpoint : String
deriving DecidableEq, Repr

/-- The `last_error` variable of the retry loop: initially `None`, then
either a recorded `KernelAPIError` (server-error outcome) or a caught
transport exception. -/
inductive LastError where
  | noneYet
  | apiError (e : KernelAPIErrorData)
  | transport (msg : String)
deriving DecidableEq, Repr

/-- How a `request()` call terminates: a returned response, a raised
`KernelAPIError`, or a raised `ValueError` (missing credential or
unsupported method). -/
inductive RequestResult where
  | success (r : HttpResponse)
  | raisedAPIError (e : KernelAPIErrorData)
  | raisedValueError (msg : String)
deriving DecidableEq, Repr

/-- A JSON dict body is a finite list of key/value pairs (values opaque). -/
abbrev JsonDict := List (String × String)

/-- Observable trace of one `request()` call: the result, how many HTTP
requests were actually issued through the transport (what a transport spy
would count), the backoff sleeps performed in order (seconds), and the
JSON body handed to the transport on each issued attempt (`none` for
methods that send no JSON body). -/
structure RequestTrace where
  result : RequestResult
  requestsIssued : Nat
  sleeps : List ℚ
  sentBodies : List (Option JsonDict)
deriving DecidableEq, Repr

/-- The four verbs `request()` dispatches on. -/
def supportedMethods : List String := ["GET", "POST", "DELETE", "PATCH"]

/-- The `ValueError` message of `get_headers` when the credential is absent. -/
def missingKeyMsg : String := "KERNEL_API_KEY environment variable not set"

/-- Embeds `get_headers()`: reads `KERNEL_API_KEY` from the environment
(given here as `envKey`, `none` when unset), raises `ValueError` when the
value is falsy (absent or the empty string), and otherwise returns the
bearer-token headers. -/
def get_headers (envKey : Option String) : Except String JsonDict :=
  match envKey with
  | none => .error missingKeyMsg
  | some api_key =>
      if api_key = "" then .error missingKeyMsg
      else .ok [("Authorization", "Bearer " ++ api_key),
                ("Content-Type", "application/json")]

/-- The JSON body an attempt hands to the transport: `POST` and `PATCH`
send `json=json_data or {}` (Python `or` replaces a `None` or empty dict
by `{}`); `GET` and `DELETE` send no JSON body. -/
def sentBody (method : String) (json_data : Option JsonDict) : Option JsonDict :=
  if method = "POST" ∨ method = "PATCH" then
    some (match json_data with
          | none => []
          | some d => if d = [] then [] else d)
  else none

/-- Embeds the `for attempt in range(MAX_RETRIES)` loop of `request()` and
the raise after it.  `atts` is the list of remaining attempt indices,
`last` the `last_error` variable, `sleeps` and `bodies` the trace
accumulated so far.  An unsupported method raises `ValueError` from inside
the loop body before any request is issued on that attempt, and that
exception is not caught by the `except` clause. -/
def requestLoop (method path : String) (json_data : Option JsonDict)
    (outcomes : Nat → AttemptOutcome) :
    List Nat → LastError → List ℚ → List (Option JsonDict) → RequestTrace
  | [], last, sleeps, bodies =>
      match last with
      | .apiError e => ⟨.raisedAPIError e, bodies.length, sleeps, bodies⟩
      | .transport m =>
          ⟨.raisedAPIError ⟨0, m, KERNEL_API_BASE ++ path⟩, bodies.length, sleeps, bodies⟩
      | .noneYet =>
          ⟨.raisedAPIError ⟨0, "None", KERNEL_API_BASE ++ path⟩, bodies.length, sleeps, bodies⟩
  | a :: rest, last, sleeps, bodies =>
      if method ∈ supportedMethods then
        let bodies' := bodies ++ [sentBody method json_data]
        match outcomes a with
        | .response r =>
            if r.status_code < 500 then
              ⟨.success r, bodies'.length, sleeps, bodies'⟩
            else
              let last' := LastError.apiError ⟨r.status_code, r.text, KERNEL_API_BASE ++ path⟩
              let sleeps' := if a < MAX_RETRIES - 1
                             then sleeps ++ [RETRY_BACKOFF * 2 ^ a] else sleeps
              requestLoop method path json_data outcomes rest last' sleeps' bodies'
        | .transportError m =>
            let last' := LastError.transport m
            let sleeps' := if a < MAX_RETRIES - 1
                           then sleeps ++ [RETRY_BACKOFF * 2 ^ a] else sleeps
            requestLoop method path json_data outcomes rest last' sleeps' bodies'
      else
        ⟨.raisedValueError ("Unsupported method: " ++ method), bodies.length, sleeps, bodies⟩

/-- Embeds `request(method, path, ..., json_data=...)`.  `get_client()` is
called first (it performs no network exchange, so it contributes nothing
to the trace); `get_headers()` then raises before the loop when the
credential is missing; otherwise the retry loop runs over attempt indices
`0, ..., MAX_RETRIES - 1` with `outcomes` supplying what each issued
attempt yields. -/
def request (envKey : Option String) (method path : String)
    (json_data : Option JsonDict) (outcomes : Nat → AttemptOutcome) : RequestTrace :=
  match get_headers envKey with
  | .error m => ⟨.raisedValueError m, 0, [], []⟩
  | .ok _ =>
      requestLoop method path json_data outcomes
        (List.range MAX_RETRIES) .noneYet [] []

/-- An attempt outcome the retry loop treats as transient: a response with
status at least 500, or a transport fault. -/
def transientFail (o : AttemptOutcome) : Prop :=
  (∃ r, o = .response r ∧ 500 ≤ r.status_code) ∨ (∃ m, o = .transportError m)

/-- The value `last_error` holds after a transient attempt outcome: the
recorded `KernelAPIError` for a server-error response, or the caught
transport exception. -/
def recordedError (o : AttemptOutcome) (path : String) : LastError :=
  match o with
  | .response r => .apiError ⟨r.status_code, r.text, KERNEL_API_BASE ++ path⟩
  | .transportError m => .transport m

/-- JSON-like values, for `parse_list_response` (Python `None` is `null`). -/
inductive JsonVal where
  | null
  | num (n : Int)
  | str (s : String)
  | arr (xs : List JsonVal)
  | obj (fields : List (String × JsonVal))

/-- Python `d.get(key, default)` on the association-list model of a dict. -/
def dictGet (fields : List (String × JsonVal)) (key : String) (default : JsonVal) : JsonVal :=
  match fields.find? (fun kv => kv.1 = key) with
  | some kv => kv.2
  | none => default

/-- Embeds `parse_list_response(data)`: for a dict, take
`data.get("data", data)` and replace a `None` result by `[]`; for a
non-dict, return it unless it is `None`, in which case return `[]`. -/
def parse_list_response (data : JsonVal) : JsonVal :=
  match data with
  | .obj fields =>
      match dictGet fields "data" (.obj fields) with
      | .null => .arr []
      | result => result
  | .null => .arr []
  | d => d

end KernelClient

namespace ConnMgr

/-- State of the connection manager: the module-level `_client` variable
(`none` models Python `None`, `some id` a handle identified by creation
order), the set of handles that have been closed, and the next fresh
handle id.  A handle is live when it has been created and not closed. -/
structure CMState where
  client : Option Nat
  closed : List Nat
  nextId : Nat
deriving DecidableEq, Repr

/-- The initial module state: `_client = None`, nothing created. -/
def initState : CMState := ⟨none, [], 0⟩

/-- Embeds `get_client()`: if `_client is None or _client.is_closed`, a
fresh `httpx.AsyncClient` is constructed and stored; the stored handle is
returned.  Returns the handle together with the updated state. -/
def get_client (s : CMState) : Nat × CMState :=
  match s.client with
  | some c =>
      if c ∈ s.closed then (s.nextId, ⟨some s.nextId, s.closed, s.nextId + 1⟩)
      else (c, s)
  | none => (s.nextId, ⟨some s.nextId, s.closed, s.nextId + 1⟩)

/-- Embeds `cleanup_client()`: if `_client is not None and not
_client.is_closed`, the handle is closed (`aclose`) and `_client` reset to
`None`; otherwise nothing happens. -/
def cleanup_client (s : CMState) : CMState :=
  match s.client with
  | some c => if c ∈ s.closed then s else ⟨none, c :: s.closed, s.nextId⟩
  | none => s

/-- The two operations a caller can perform on the manager. -/
inductive Op where
  | acquire
  | release
deriving DecidableEq, Repr

/-- One operation applied to the state. -/
def step (s : CMState) : Op → CMState
  | .acquire => (get_client s).2
  | .release => cleanup_client s

/-- The state after a sequence of acquire/release operations from start. -/
def run (ops : List Op) : CMState := ops.foldl step initState

/-- At most one live handle: any two created, non-closed handles coincide. -/
def AtMostOneLive (s : CMState) : Prop :=
  ∀ a b, a < s.nextId → a ∉ s.closed → b < s.nextId → b ∉ s.closed → a = b

/-- Structural invariant: every closed id was created; when `_client` is
`None` everything created is closed; and a stored handle is created, open,
and the unique live one. -/
def Inv (s : CMState) : Prop :=
  (∀ id ∈ s.closed, id < s.nextId) ∧
  (s.client = none → ∀ id, id < s.nextId → id ∈ s.closed) ∧
  (∀ c, s.client = some c →
    c < s.nextId ∧ c ∉ s.closed ∧ ∀ id, id < s.nextId → id ≠ c → id ∈ s.closed)

end ConnMgr

namespace KernelClient

lemma request_eq_loop {k method path : String} {jd : Option JsonDict}
    {outs : Nat → AttemptOutcome} (hk : k ≠ "") :
    request (some k) method path jd outs =
      requestLoop method path jd outs [0, 1, 2] .noneYet [] [] := by
  simp [request, get_headers, hk]
  rfl

lemma loop_step {method path : String} {jd : Option JsonDict} {outs : Nat → AttemptOutcome}
    (hm : method ∈ supportedMethods) {a : Nat} {rest : List Nat}
    {last : LastError} {sleeps : List ℚ} {bodies : List (Option JsonDict)}
    (ht : transientFail (outs a)) :
    requestLoop method path jd outs (a :: rest) last sleeps bodies =
      requestLoop method path jd outs rest (recordedError (outs a) path)
        (if a < MAX_RETRIES - 1 then sleeps ++ [RETRY_BACKOFF * 2 ^ a] else sleeps)
        (bodies ++ [sentBody method jd]) := by
  rcases ht with ⟨r, hr, hge⟩ | ⟨m, hme⟩
  · have hnl : ¬ r.status_code < 500 := by omega
    simp [requestLoop, hm, hr, hnl, recordedError]
  · simp [requestLoop, hm, hme, recordedError]

lemma loop_success {method path : String} {jd : Option JsonDict} {outs : Nat → AttemptOutcome}
    (hm : method ∈ supportedMethods) {a : Nat} {rest : List Nat}
    {last : LastError} {sleeps : List ℚ} {bodies : List (Option JsonDict)}
    {r : HttpResponse} (hr : outs a = .response r) (hlt : r.status_code < 500) :
    requestLoop method path jd outs (a :: rest) last sleeps bodies =
      ⟨.success r, bodies.length + 1, sleeps, bodies ++ [sentBody method jd]⟩ := by
  simp [requestLoop, hm, hr, hlt]

lemma loop_exhaust {method path : String} {jd : Option JsonDict} {outs : Nat → AttemptOutcome}
    (hm : method ∈ supportedMethods)
    (hfail : ∀ i, i < MAX_RETRIES → transientFail (outs i)) :
    requestLoop method path jd outs [0, 1, 2] .noneYet [] [] =
      ⟨(match outs 2 with
        | .response r => .raisedAPIError ⟨r.status_code, r.text, KERNEL_API_BASE ++ path⟩
        | .transportError m => .raisedAPIError ⟨0, m, KERNEL_API_BASE ++ path⟩),
       3, [RETRY_BACKOFF * 2 ^ 0, RETRY_BACKOFF * 2 ^ 1],
       [sentBody method jd, sentBody method jd, sentBody method jd]⟩ := by
  rw [loop_step hm (hfail 0 (by decide)), loop_step hm (hfail 1 (by decide)),
      loop_step hm (hfail 2 (by decide))]
  cases h2 : outs 2 <;>
    simp [requestLoop, recordedError, h2, MAX_RETRIES]

end KernelClient

namespace KernelClient

/-- C1: when every one of the three attempts receives a response with a
status code in [500, 599], `request()` issues exactly 3 attempts, sleeps
0.5s after the first failed attempt and 1.0s after the second (and none
after the final one), and raises a structured error carrying the status
code observed on the last attempt. -/
theorem retry_exhaustion_all_5xx (key method path : String) (jd : Option JsonDict)
    (outs : Nat → AttemptOutcome) (r0 r1 r2 : HttpResponse)
    (hkey : key ≠ "") (hm : method ∈ supportedMethods)
    (h0 : outs 0 = .response r0) (h1 : outs 1 = .response r1) (h2 : outs 2 = .response r2)
    (s0 : 500 ≤ r0.status_code ∧ r0.status_code ≤ 599)
    (s1 : 500 ≤ r1.status_code ∧ r1.status_code ≤ 599)
    (s2 : 500 ≤ r2.status_code ∧ r2.status_code ≤ 599) :
    (request (some key) method path jd outs).result =
      .raisedAPIError ⟨r2.status_code, r2.text, KERNEL_API_BASE ++ path⟩ ∧
    (request (some key) method path jd outs).requestsIssued = 3 ∧
    (request (some key) method path jd outs).sleeps = [1/2, 1] := by
  have hfail : ∀ i, i < MAX_RETRIES → transientFail (outs i) := by
    intro i hi
    have hi3 : i < 3 := hi
    interval_cases i
    · exact Or.inl ⟨r0, h0, s0.1⟩
    · exact Or.inl ⟨r1, h1, s1.1⟩
    · exact Or.inl ⟨r2, h2, s2.1⟩
  rw [request_eq_loop hkey, loop_exhaust hm hfail, h2]
  refine ⟨rfl, rfl, ?_⟩
  norm_num [RETRY_BACKOFF]

/-- Witness for C1: a concrete run in which all three attempts return 503. -/
theorem retry_exhaustion_all_5xx_witness :
    (request (some "key") "GET" "/x" none (fun _ => .response ⟨503, "oops"⟩)).result =
      .raisedAPIError ⟨503, "oops", KERNEL_API_BASE ++ "/x"⟩ ∧
    (request (some "key") "GET" "/x" none (fun _ => .response ⟨503, "oops"⟩)).requestsIssued = 3 ∧
    (request (some "key") "GET" "/x" none (fun _ => .response ⟨503, "oops"⟩)).sleeps = [1/2, 1] :=
  retry_exhaustion_all_5xx "key" "GET" "/x" none _ ⟨503, "oops"⟩ ⟨503, "oops"⟩ ⟨503, "oops"⟩
    (by decide) (by simp [supportedMethods]) rfl rfl rfl
    (by constructor <;> decide) (by constructor <;> decide) (by constructor <;> decide)

/-- C2: an attempt that receives a response with status code below 500
(success or 4xx client error) makes `request()` return that response on
that very attempt, with no further attempt and no backoff sleep beyond
those of the earlier failed attempts; in particular a 4xx on the first
attempt returns with zero retries and zero delay. -/
theorem sub500_immediate_return (key method path : String) (jd : Option JsonDict)
    (outs : Nat → AttemptOutcome) (n : Nat) (r : HttpResponse)
    (hkey : key ≠ "") (hm : method ∈ supportedMethods) (hn : n < MAX_RETRIES)
    (hprev : ∀ i, i < n → transientFail (outs i))
    (hr : outs n = .response r) (hlt : r.status_code < 500) :
    (request (some key) method path jd outs).result = .success r ∧
    (request (some key) method path jd outs).requestsIssued = n + 1 ∧
    (request (some key) method path jd outs).sleeps =
      (List.range n).map (fun i => RETRY_BACKOFF * 2 ^ i) := by
  rw [request_eq_loop hkey]
  have hn3 : n < 3 := hn
  interval_cases n
  · rw [loop_success hm hr hlt]
    exact ⟨rfl, rfl, rfl⟩
  · rw [loop_step hm (hprev 0 (by decide)), loop_success hm hr hlt]
    refine ⟨rfl, rfl, ?_⟩
    simp [MAX_RETRIES, List.range_succ]
  · rw [loop_step hm (hprev 0 (by decide)), loop_step hm (hprev 1 (by decide)),
        loop_success hm hr hlt]
    refine ⟨rfl, rfl, ?_⟩
    simp [MAX_RETRIES, List.range_succ]

/-- Witness for C2: a 404 on the first attempt is returned with one issued
request and no sleep. -/
theorem sub500_immediate_return_witness :
    (request (some "key") "GET" "/x" none (fun _ => .response ⟨404, "nf"⟩)).result =
      .success ⟨404, "nf"⟩ ∧
    (request (some "key") "GET" "/x" none (fun _ => .response ⟨404, "nf"⟩)).requestsIssued = 0 + 1 ∧
    (request (some "key") "GET" "/x" none (fun _ => .response ⟨404, "nf"⟩)).sleeps =
      (List.range 0).map (fun i => RETRY_BACKOFF * 2 ^ i) :=
  sub500_immediate_return "key" "GET" "/x" none _ 0 ⟨404, "nf"⟩
    (by decide) (by simp [supportedMethods]) (by decide)
    (fun i hi => absurd hi (Nat.not_lt_zero i)) rfl (by decide)

/-- C3: with no credential configured, `request()` raises the
configuration error with zero requests issued through the transport and
no retry sleeps. -/
theorem missing_credential_no_attempts (method path : String) (jd : Option JsonDict)
    (outs : Nat → AttemptOutcome) :
    (request none method path jd outs).result = .raisedValueError missingKeyMsg ∧
    (request none method path jd outs).requestsIssued = 0 ∧
    (request none method path jd outs).sleeps = [] :=
  ⟨rfl, rfl, rfl⟩

/-- C4: when every attempt ends in a transport-level fault and no response
is ever received, `request()` raises a structured error with status code 0
carrying the last fault's message. -/
theorem transport_exhaustion_status_zero (key method path : String) (jd : Option JsonDict)
    (outs : Nat → AttemptOutcome) (m0 m1 m2 : String)
    (hkey : key ≠ "") (hm : method ∈ supportedMethods)
    (h0 : outs 0 = .transportError m0) (h1 : outs 1 = .transportError m1)
    (h2 : outs 2 = .transportError m2) :
    (request (some key) method path jd outs).result =
      .raisedAPIError ⟨0, m2, KERNEL_API_BASE ++ path⟩ ∧
    (request (some key) method path jd outs).requestsIssued = 3 := by
  have hfail : ∀ i, i < MAX_RETRIES → transientFail (outs i) := by
    intro i hi
    have hi3 : i < 3 := hi
    interval_cases i
    · exact Or.inr ⟨m0, h0⟩
    · exact Or.inr ⟨m1, h1⟩
    · exact Or.inr ⟨m2, h2⟩
  rw [request_eq_loop hkey, loop_exhaust hm hfail, h2]
  exact ⟨rfl, rfl⟩

/-- Witness for C4: all three attempts fail with a connect fault. -/
theorem transport_exhaustion_status_zero_witness :
    (request (some "key") "GET" "/x" none (fun _ => .transportError "down")).result =
      .raisedAPIError ⟨0, "down", KERNEL_API_BASE ++ "/x"⟩ ∧
    (request (some "key") "GET" "/x" none (fun _ => .transportError "down")).requestsIssued = 3 :=
  transport_exhaustion_status_zero "key" "GET" "/x" none _ "down" "down" "down"
    (by decide) (by simp [supportedMethods]) rfl rfl rfl

end KernelClient

namespace KernelClient

/-- C5 (counterexample): attempts 1 and 2 observe a 503 response but the
final attempt ends in a connectivity fault; the raised error carries
status code 0, not the previously observed 503, refuting the claim that an
observed status code from any earlier attempt is preserved. -/
theorem last_error_counterexample :
    (fun i => if i < 2 then AttemptOutcome.response ⟨503, "oops"⟩
              else AttemptOutcome.transportError "boom") 0 =
      AttemptOutcome.response ⟨503, "oops"⟩ ∧
    (request (some "key") "GET" "/x" none
        (fun i => if i < 2 then AttemptOutcome.response ⟨503, "oops"⟩
                  else AttemptOutcome.transportError "boom")).result =
      .raisedAPIError ⟨0, "boom", "https://api.onkernel.com/x"⟩ ∧
    ¬ (request (some "key") "GET" "/x" none
        (fun i => if i < 2 then AttemptOutcome.response ⟨503, "oops"⟩
                  else AttemptOutcome.transportError "boom")).result =
      .raisedAPIError ⟨503, "oops", "https://api.onkernel.com/x"⟩ := by
  have h : (request (some "key") "GET" "/x" none
      (fun i => if i < 2 then AttemptOutcome.response ⟨503, "oops"⟩
                else AttemptOutcome.transportError "boom")).result =
      RequestResult.raisedAPIError ⟨0, "boom", "https://api.onkernel.com/x"⟩ := rfl
  refine ⟨rfl, h, ?_⟩
  rw [h]
  simp

/-- C5 (amended): when all attempts are exhausted, `request()` raises the
last recorded outcome: the status code of the third attempt's 5xx response
when the final attempt received a response, and status code 0 when the
final attempt ended in a connectivity fault, regardless of responses seen
on earlier attempts. -/
theorem last_error_raised (key method path : String) (jd : Option JsonDict)
    (outs : Nat → AttemptOutcome)
    (hkey : key ≠ "") (hm : method ∈ supportedMethods)
    (hfail : ∀ i, i < MAX_RETRIES → transientFail (outs i)) :
    (∀ r, outs 2 = .response r →
        (request (some key) method path jd outs).result =
          .raisedAPIError ⟨r.status_code, r.text, KERNEL_API_BASE ++ path⟩) ∧
    (∀ m, outs 2 = .transportError m →
        (request (some key) method path jd outs).result =
          .raisedAPIError ⟨0, m, KERNEL_API_BASE ++ path⟩) := by
  rw [request_eq_loop hkey, loop_exhaust hm hfail]
  constructor
  · intro r h2
    rw [h2]
  · intro m h2
    rw [h2]

/-- Witness for the amended C5: two 503 responses followed by a connect
fault raise the connectivity error with status 0. -/
theorem last_error_raised_witness :
    (request (some "key") "GET" "/y" none
        (fun i => if i < 2 then AttemptOutcome.response ⟨503, "bad"⟩
                  else AttemptOutcome.transportError "unreachable")).result =
      .raisedAPIError ⟨0, "unreachable", KERNEL_API_BASE ++ "/y"⟩ :=
  (last_error_raised "key" "GET" "/y" none _
      (by decide) (by simp [supportedMethods])
      (by
        intro i hi
        have hi3 : i < 3 := hi
        interval_cases i
        · exact Or.inl ⟨⟨503, "bad"⟩, rfl, by decide⟩
        · exact Or.inl ⟨⟨503, "bad"⟩, rfl, by decide⟩
        · exact Or.inr ⟨"unreachable", rfl⟩)).2 "unreachable" rfl

end KernelClient

namespace KernelClient

/-- C6 (counterexample): on a dict without a `"data"` field,
`parse_list_response` returns the dict itself (the default argument of
`data.get("data", data)` is the dict), not the empty sequence the claim
states. -/
theorem parse_list_absent_field_counterexample :
    parse_list_response (.obj [("foo", .num 1)]) = .obj [("foo", .num 1)] ∧
    ¬ parse_list_response (.obj [("foo", .num 1)]) = .arr [] := by
  have h : parse_list_response (.obj [("foo", .num 1)]) = .obj [("foo", .num 1)] := rfl
  refine ⟨h, ?_⟩
  rw [h]
  intro hc
  exact JsonVal.noConfusion hc

/-- C6 (amended): `parse_list_response` never yields null; a dict whose
`"data"` field holds a sequence yields that sequence; a dict whose
`"data"` field is null yields the empty sequence; a direct sequence is
returned unchanged; a dict without a `"data"` field yields the dict itself
unchanged; null yields the empty sequence. -/
theorem parse_list_normalization :
    (∀ d, ¬ parse_list_response d = .null) ∧
    (∀ rest xs, parse_list_response (.obj (("data", .arr xs) :: rest)) = .arr xs) ∧
    (∀ rest, parse_list_response (.obj (("data", .null) :: rest)) = .arr []) ∧
    (∀ xs, parse_list_response (.arr xs) = .arr xs) ∧
    (∀ fields, fields.find? (fun kv => kv.1 = "data") = none →
        parse_list_response (.obj fields) = .obj fields) ∧
    parse_list_response .null = .arr [] := by
  refine ⟨?_, ?_, ?_, ?_, ?_, rfl⟩
  · intro d
    cases d with
    | null => intro hc; exact JsonVal.noConfusion hc
    | num n => intro hc; exact JsonVal.noConfusion hc
    | str s => intro hc; exact JsonVal.noConfusion hc
    | arr xs => intro hc; exact JsonVal.noConfusion hc
    | obj fields =>
        show ¬ (match dictGet fields "data" (.obj fields) with
                | .null => JsonVal.arr []
                | result => result) = .null
        rcases hcase : dictGet fields "data" (.obj fields) with _ | n | s | xs | fs <;>
          intro hc <;> exact JsonVal.noConfusion hc
  · intro rest xs
    have hfind : dictGet (("data", JsonVal.arr xs) :: rest) "data"
        (.obj (("data", JsonVal.arr xs) :: rest)) = .arr xs := rfl
    simp only [parse_list_response]
    rw [hfind]
  · intro rest
    have hfind : dictGet (("data", JsonVal.null) :: rest) "data"
        (.obj (("data", JsonVal.null) :: rest)) = .null := rfl
    simp only [parse_list_response]
    rw [hfind]
  · intro xs
    rfl
  · intro fields hfind
    have hd : dictGet fields "data" (.obj fields) = .obj fields := by
      simp [dictGet, hfind]
    simp only [parse_list_response]
    rw [hd]

/-- Witness for the amended C6 at a concrete dict lacking the `"data"`
field: the dict comes back unchanged. -/
theorem parse_list_normalization_witness :
    parse_list_response (.obj [("item", .str "v")]) = .obj [("item", .str "v")] :=
  parse_list_normalization.2.2.2.2.1 [("item", .str "v")] rfl

end KernelClient

namespace KernelClient

lemma loop_endpoint {method path : String} {jd : Option JsonDict}
    {outs : Nat → AttemptOutcome} :
    ∀ (atts : List Nat) (last : LastError) (sleeps : List ℚ)
      (bodies : List (Option JsonDict)),
      (∀ e, last = .apiError e → e.endpoint = KERNEL_API_BASE ++ path) →
      ∀ e, (requestLoop method path jd outs atts last sleeps bodies).result =
          .raisedAPIError e →
        e.endpoint = KERNEL_API_BASE ++ path := by
  intro atts
  induction atts with
  | nil =>
      intro last sleeps bodies hlast e he
      cases last with
      | noneYet =>
          simp only [requestLoop] at he
          simp only [RequestResult.raisedAPIError.injEq] at he
          rw [← he]
      | apiError e' =>
          simp only [requestLoop] at he
          simp only [RequestResult.raisedAPIError.injEq] at he
          rw [← he]
          exact hlast e' rfl
      | transport m =>
          simp only [requestLoop] at he
          simp only [RequestResult.raisedAPIError.injEq] at he
          rw [← he]
  | cons a rest ih =>
      intro last sleeps bodies hlast e he
      by_cases hm : method ∈ supportedMethods
      · cases houtcome : outs a with
        | response r =>
            by_cases hlt : r.status_code < 500
            · simp [requestLoop, hm, houtcome, hlt] at he
            · simp only [requestLoop, hm, houtcome, hlt, if_true, if_false,
                ite_false, ite_true, eq_self_iff_true] at he
              refine ih _ _ _ (fun e'' h'' => ?_) e he
              injection h'' with h'''
              rw [← h''']
        | transportError m =>
            simp only [requestLoop, hm, houtcome] at he
            exact ih _ _ _ (fun e'' h'' => by cases h'') e he
      · simp [requestLoop, hm] at he

/-- C8 (counterexample): on final failure the error's endpoint field holds
the full request URL (fixed base plus path), not the endpoint-relative
path string supplied by the caller. -/
theorem error_endpoint_counterexample :
    (request (some "key") "GET" "/browsers" none
        (fun _ => .transportError "down")).result =
      .raisedAPIError ⟨0, "down", "https://api.onkernel.com/browsers"⟩ ∧
    ("https://api.onkernel.com/browsers" : String) ≠ "/browsers" :=
  ⟨rfl, by decide⟩

/-- C8 (amended): every structured error raised by `request()` carries a
status code, a message, and, as its endpoint field, the full request URL
`KERNEL_API_BASE ++ path` built from the caller-supplied path. -/
theorem error_endpoint_full_url (envKey : Option String) (method path : String)
    (jd : Option JsonDict) (outs : Nat → AttemptOutcome) (e : KernelAPIErrorData)
    (he : (request envKey method path jd outs).result = .raisedAPIError e) :
    e.endpoint = KERNEL_API_BASE ++ path := by
  cases envKey with
  | none => simp [request, get_headers] at he
  | some k =>
      by_cases hk : k = ""
      · subst hk
        simp [request, get_headers] at he
      · rw [request_eq_loop hk] at he
        refine loop_endpoint _ _ _ _ ?_ e he
        intro e' h'
        cases h'

/-- Witness for the amended C8: a concrete exhausted run's error carries
the base origin concatenated with the path. -/
theorem error_endpoint_full_url_witness :
    (KernelAPIErrorData.mk 0 "refused" "https://api.onkernel.com/apps").endpoint =
      KERNEL_API_BASE ++ "/apps" :=
  error_endpoint_full_url (some "key") "GET" "/apps" none
    (fun _ => .transportError "refused") _ rfl

/-- C9: an empty `KERNEL_API_KEY` is treated exactly like an absent one:
`get_headers` raises the same configuration error, and `request()`
produces the very same trace as with the variable unset, issuing no
attempt. -/
theorem empty_api_key_rejected (method path : String) (jd : Option JsonDict)
    (outs : Nat → AttemptOutcome) :
    get_headers (some "") = get_headers none ∧
    request (some "") method path jd outs = request none method path jd outs ∧
    (request (some "") method path jd outs).result = .raisedValueError missingKeyMsg ∧
    (request (some "") method path jd outs).requestsIssued = 0 :=
  ⟨rfl, rfl, rfl, rfl⟩

lemma loop_bodies {method path : String} {jd : Option JsonDict}
    {outs : Nat → AttemptOutcome} :
    ∀ (atts : List Nat) (last : LastError) (sleeps : List ℚ)
      (bodies : List (Option JsonDict)),
      ∀ b ∈ (requestLoop method path jd outs atts last sleeps bodies).sentBodies,
        b ∈ bodies ∨ b = sentBody method jd := by
  intro atts
  induction atts with
  | nil =>
      intro last sleeps bodies b hb
      cases last <;> simp only [requestLoop] at hb <;> exact Or.inl hb
  | cons a rest ih =>
      intro last sleeps bodies b hb
      by_cases hm : method ∈ supportedMethods
      · cases houtcome : outs a with
        | response r =>
            by_cases hlt : r.status_code < 500
            · simp [requestLoop, hm, houtcome, hlt] at hb
              rcases hb with hb | hb
              · exact Or.inl hb
              · exact Or.inr hb
            · simp only [requestLoop, hm, houtcome, hlt, if_true, if_false,
                ite_false, ite_true, eq_self_iff_true] at hb
              rcases ih _ _ _ b hb with h | h
              · rcases List.mem_append.1 h with h' | h'
                · exact Or.inl h'
                · exact Or.inr (List.mem_singleton.1 h')
              · exact Or.inr h
        | transportError m =>
            simp only [requestLoop, hm, houtcome] at hb
            rcases ih _ _ _ b hb with h | h
            · rcases List.mem_append.1 h with h' | h'
              · exact Or.inl h'
              · exact Or.inr (List.mem_singleton.1 h')
            · exact Or.inr h
      · simp only [requestLoop, hm, if_false] at hb
        exact Or.inl hb

/-- C10: a `POST` or `PATCH` call whose optional structured body is
omitted or empty sends the empty JSON object as the body of every issued
attempt, never no body at all. -/
theorem post_patch_empty_body (envKey : Option String) (method path : String)
    (jd : Option JsonDict) (outs : Nat → AttemptOutcome)
    (hm : method = "POST" ∨ method = "PATCH") (hj : jd = none ∨ jd = some []) :
    sentBody method jd = some [] ∧
    (request envKey method path jd outs).sentBodies =
      List.replicate (request envKey method path jd outs).sentBodies.length (some []) := by
  have hs : sentBody method jd = some [] := by
    rcases hm with hm | hm <;> rcases hj with hj | hj <;> subst hm <;> subst hj <;> rfl
  refine ⟨hs, ?_⟩
  apply List.eq_replicate_of_mem
  intro b hb
  cases envKey with
  | none => simp [request, get_headers] at hb
  | some k =>
      by_cases hk : k = ""
      · subst hk
        simp [request, get_headers] at hb
      · rw [request_eq_loop hk] at hb
        rcases loop_bodies _ _ _ _ b hb with h | h
        · simp at h
        · rw [h, hs]

/-- Witness for C10: a concrete `POST` with an omitted body sends exactly
one empty JSON object. -/
theorem post_patch_empty_body_witness :
    sentBody "POST" none = some [] ∧
    (request (some "key2") "POST" "/x" none (fun _ => .response ⟨200, "ok"⟩)).sentBodies =
      List.replicate (request (some "key2") "POST" "/x" none
          (fun _ => .response ⟨200, "ok"⟩)).sentBodies.length (some []) :=
  post_patch_empty_body (some "key2") "POST" "/x" none _ (Or.inl rfl) (Or.inl rfl)

end KernelClient

namespace ConnMgr

lemma init_inv : Inv initState := by
  refine ⟨?_, ?_, ?_⟩
  · intro id hid
    exact absurd hid (List.not_mem_nil id)
  · intro _ id hid
    exact absurd hid (Nat.not_lt_zero id)
  · intro c hc
    exact Option.noConfusion hc

lemma get_client_inv {s : CMState} (h : Inv s) :
    Inv (get_client s).2 ∧ (get_client s).1 ∉ (get_client s).2.closed := by
  obtain ⟨hcb, hnone, hsome⟩ := h
  have hfresh : s.nextId ∉ s.closed := fun hmem => absurd (hcb _ hmem) (lt_irrefl _)
  cases hc : s.client with
  | none =>
      simp only [get_client, hc]
      refine ⟨⟨?_, ?_, ?_⟩, hfresh⟩
      · intro id hid
        exact Nat.lt_succ_of_lt (hcb id hid)
      · intro habs
        exact Option.noConfusion habs
      · intro c hcsome
        have hcc : c = s.nextId := (Option.some.inj hcsome).symm
        subst hcc
        refine ⟨Nat.lt_succ_self _, hfresh, ?_⟩
        intro id hid hne
        have hid' : id < s.nextId + 1 := hid
        exact hnone hc id (by omega)
  | some c =>
      obtain ⟨hclt, hcnc, huniq⟩ := hsome c hc
      simp only [get_client, hc]
      rw [if_neg hcnc]
      exact ⟨⟨hcb, hnone, hsome⟩, hcnc⟩

lemma cleanup_inv {s : CMState} (h : Inv s) : Inv (cleanup_client s) := by
  obtain ⟨hcb, hnone, hsome⟩ := h
  cases hc : s.client with
  | none =>
      simp only [cleanup_client, hc]
      exact ⟨hcb, hnone, hsome⟩
  | some c =>
      obtain ⟨hclt, hcnc, huniq⟩ := hsome c hc
      simp only [cleanup_client, hc]
      rw [if_neg hcnc]
      refine ⟨?_, ?_, ?_⟩
      · intro id hid
        rcases List.mem_cons.1 hid with rfl | hid'
        · exact hclt
        · exact hcb id hid'
      · intro _ id hid
        by_cases hidc : id = c
        · subst hidc
          exact List.mem_cons_self _ _
        · exact List.mem_cons_of_mem _ (huniq id hid hidc)
      · intro c' hc'
        exact Option.noConfusion hc'

lemma run_inv (ops : List Op) : Inv (run ops) := by
  suffices h : ∀ s, Inv s → Inv (ops.foldl step s) from h initState init_inv
  induction ops with
  | nil => intro s hs; exact hs
  | cons o rest ih =>
      intro s hs
      apply ih
      cases o with
      | acquire => exact (get_client_inv hs).1
      | release => exact cleanup_inv hs

lemma atMostOneLive_of_inv {s : CMState} (h : Inv s) : AtMostOneLive s := by
  intro a b ha hra hb hrb
  obtain ⟨hcb, hnone, hsome⟩ := h
  cases hc : s.client with
  | none => exact absurd (hnone hc a ha) hra
  | some c =>
      obtain ⟨_, _, huniq⟩ := hsome c hc
      have ha' : a = c := by
        by_contra hne
        exact hra (huniq a ha hne)
      have hb' : b = c := by
        by_contra hne
        exact hrb (huniq b hb hne)
      rw [ha', hb']

lemma cleanup_idem (s : CMState) :
    cleanup_client (cleanup_client s) = cleanup_client s := by
  cases hc : s.client with
  | none => simp [cleanup_client, hc]
  | some c =>
      by_cases hcc : c ∈ s.closed
      · simp [cleanup_client, hc, hcc]
      · simp [cleanup_client, hc, hcc]

/-- C7: after any sequence of acquire (`get_client`) and release
(`cleanup_client`) operations from the initial state: at most one live
(non-closed) transport handle exists, before and after a further acquire;
`get_client` returns a handle that is not closed, returns the stored
handle unchanged when it is present and open, and stores a fresh handle
when none is present; `cleanup_client` closes an open handle and clears
the stored reference, and is an idempotent no-op once everything is
closed. -/
theorem connection_manager_invariants (ops : List Op) :
    AtMostOneLive (run ops) ∧
    (get_client (run ops)).1 ∉ (get_client (run ops)).2.closed ∧
    AtMostOneLive (get_client (run ops)).2 ∧
    (∀ c, (run ops).client = some c → c ∉ (run ops).closed →
        get_client (run ops) = (c, run ops)) ∧
    ((run ops).client = none → (get_client (run ops)).1 = (run ops).nextId) ∧
    (∀ c, (run ops).client = some c → c ∉ (run ops).closed →
        cleanup_client (run ops) = ⟨none, c :: (run ops).closed, (run ops).nextId⟩) ∧
    cleanup_client (cleanup_client (run ops)) = cleanup_client (run ops) := by
  have hinv := run_inv ops
  refine ⟨atMostOneLive_of_inv hinv, (get_client_inv hinv).2,
          atMostOneLive_of_inv (get_client_inv hinv).1, ?_, ?_, ?_, cleanup_idem _⟩
  · intro c hc hnc
    simp [get_client, hc, hnc]
  · intro hc
    simp [get_client, hc]
  · intro c hc hnc
    simp [cleanup_client, hc, hnc]

/-- Witness for C7 on the operation sequence acquire, release, acquire:
the second acquired handle (id 1) is live, is returned unchanged by a
further acquire, and release closes and clears it idempotently. -/
theorem connection_manager_invariants_witness :
    get_client (run [Op.acquire, Op.release, Op.acquire]) =
      (1, run [Op.acquire, Op.release, Op.acquire]) ∧
    cleanup_client (run [Op.acquire, Op.release, Op.acquire]) =
      ⟨none, 1 :: (run [Op.acquire, Op.release, Op.acquire]).closed,
        (run [Op.acquire, Op.release, Op.acquire]).nextId⟩ ∧
    cleanup_client (cleanup_client (run [Op.acquire, Op.release, Op.acquire])) =
      cleanup_client (run [Op.acquire, Op.release, Op.acquire]) := by
  have h := connection_manager_invariants [Op.acquire, Op.release, Op.acquire]
  exact ⟨h.2.2.2.1 1 rfl (by decide), h.2.2.2.2.2.1 1 rfl (by decide), h.2.2.2.2.2.2⟩

end ConnMgr
